import Mathlib

/-!
# Verification of the location-resolution pipeline (src/utils/extractCoordinates.ts)

Shallow embedding of the itinerary data model (src/types.ts) and of the
functions `normalizeString`, `isSimilarMatch`, `findMatchingUri`,
`generateNeighborhoodMapsUrl`, `findNeighborhoodUri`,
`matchSourcesToItinerary`, `extractCoordinatesFromUrl` and the dispatch
logic of `geocodeQuery`.  JavaScript strings are Lean `String`s,
`string | null` and optional fields are `Option String` (with JavaScript
truthiness: `null`/absent and `""` are falsy), and JavaScript numbers are
`Rat` (the claims under study never depend on binary floating-point
rounding).
-/

set_option linter.unusedVariables false

/-! ## Data model (src/types.ts) -/

structure WebRef where
  uri : String
  title : String
deriving DecidableEq, Repr

structure MapsRef where
  uri : String
  title : String
  placeAnswerSources : Option (List WebRef)
deriving DecidableEq, Repr

structure GroundingChunk where
  web : Option WebRef
  maps : Option MapsRef
deriving DecidableEq, Repr

structure HiddenGem where
  name : String
  location : String
  description : String
  googleMapsLink : Option String
  locationUri : Option String
deriving DecidableEq, Repr

structure ItineraryItem where
  time : String
  activity : String
  location : String
  description : String
  googleMapsLink : Option String
  locationUri : Option String
  hiddenGem : Option HiddenGem
deriving DecidableEq, Repr

structure DailyPlan where
  day : String
  title : String
  items : List ItineraryItem
deriving DecidableEq, Repr

structure Hotel where
  name : String
  description : String
  location : String
  googleMapsLink : Option String
deriving DecidableEq, Repr

structure Itinerary where
  tripTitle : String
  vibeCheck : String
  packingList : List String
  recommendedHotels : List Hotel
  dailyItinerary : List DailyPlan
deriving DecidableEq, Repr

/-! ## JavaScript string primitives -/

/-- JavaScript truthiness of a `string | null` / optional string value:
`null`, absent and `""` are falsy. -/
def oTruthy : Option String → Bool
  | none => false
  | some s => s != ""

/-- JavaScript `a || b` on nullable strings. -/
def jsOr (a b : Option String) : Option String := if oTruthy a then a else b

/-- JavaScript `a || null` on nullable strings. -/
def orNull (a : Option String) : Option String := if oTruthy a then a else none

/-- Is `pat` a prefix of `l`? -/
def prefixAt : List Char → List Char → Bool
  | [], _ => true
  | _ :: _, [] => false
  | p :: ps, c :: cs => p = c && prefixAt ps cs

/-- Does `needle` occur somewhere in `hay`?  (first argument: needle) -/
def hasSubList : List Char → List Char → Bool
  | needle, [] => needle.isEmpty
  | needle, c :: rest => prefixAt needle (c :: rest) || hasSubList needle rest

/-- JavaScript `hay.includes(needle)` (substring containment; the empty
needle is always contained). -/
def strIncludes (hay needle : String) : Bool := hasSubList needle.toList hay.toList

/-- The whitespace class of JavaScript regular expressions, restricted to
the code points that can occur in this code base's inputs. -/
def jsSpace (c : Char) : Bool :=
  c = ' ' || c = '\t' || c = '\n' || c = '\r' || c = '\x0b' || c = '\x0c' || c = '\xa0'

/-- The `\w` class of JavaScript regular expressions (ASCII letters,
digits, underscore). -/
def isWordChar (c : Char) : Bool := c.isAlphanum || c = '_'

/-- Replace every maximal run of whitespace by one space
(`.replace(/\s+/g, ' ')`). -/
def collapseSpaces : List Char → List Char
  | [] => []
  | [c] => if jsSpace c then [' '] else [c]
  | c :: d :: rest =>
    if jsSpace c then
      if jsSpace d then collapseSpaces (d :: rest)
      else ' ' :: collapseSpaces (d :: rest)
    else c :: collapseSpaces (d :: rest)

/-- JavaScript `String.prototype.trim`. -/
def trimChars (l : List Char) : List Char :=
  ((l.dropWhile jsSpace).reverse.dropWhile jsSpace).reverse

/-- `normalizeString` (extractCoordinates.ts): lowercase, strip
`[^\w\s]`, collapse whitespace, trim. -/
def normalizeString (s : String) : String :=
  (trimChars (collapseSpaces
    ((s.toList.map Char.toLower).filter (fun c => isWordChar c || jsSpace c)))).asString

/-- JavaScript `s.split(' ')`: note `"".split(' ')` is `[""]`. -/
def splitOnSpaceAux : List Char → List Char → List String
  | [], acc => [acc.reverse.asString]
  | c :: rest, acc =>
    if c = ' ' then acc.reverse.asString :: splitOnSpaceAux rest []
    else splitOnSpaceAux rest (c :: acc)

/-- JavaScript `s.split(' ')`. -/
def jsSplitSpace (s : String) : List String := splitOnSpaceAux s.toList []

/-- Replace the first occurrence of `target` (JavaScript
`s.replace(target, repl)` with a string pattern). -/
def replaceFirstList : List Char → List Char → List Char → List Char
  | [], _, _ => []
  | c :: rest, target, repl =>
    if prefixAt target (c :: rest) then repl ++ (c :: rest).drop target.length
    else c :: replaceFirstList rest target repl

/-- Replace the first occurrence of `target` in `s` by `repl`. -/
def replaceFirst (s target repl : String) : String :=
  if target.toList.isEmpty then repl ++ s
  else (replaceFirstList s.toList target.toList repl.toList).asString

/-! ## `isSimilarMatch` -/

/-- `isSimilarMatch` (extractCoordinates.ts): exact match after
normalization, or containment with the shorter string at least 60% of the
longer one's length. -/
def isSimilarMatch (str1 str2 : String) : Bool :=
  let normalized1 := normalizeString str1
  let normalized2 := normalizeString str2
  if normalized1 = normalized2 then true
  else if strIncludes normalized1 normalized2 || strIncludes normalized2 normalized1 then
    let minLength := Nat.min normalized1.length normalized2.length
    let maxLength := Nat.max normalized1.length normalized2.length
    decide (mkRat 3 5 ≤ mkRat (minLength : Int) maxLength)
  else false

/-! ## `findMatchingUri` -/

/-- The `genericKeywords` list of `findMatchingUri`. -/
def genericKeywords : List String :=
  ["near", "around", "in", "at", "explore", "dinner", "lunch",
   "breakfast", "depart", "transit", "airport"]

/-- First pass of `findMatchingUri`: the first source whose maps title is
truthy and similar to the place name supplies its uri. -/
def pass1Uri : String → List GroundingChunk → Option String
  | _, [] => none
  | placeName, s :: rest =>
    match s.maps with
    | some m =>
      if m.title != "" && isSimilarMatch placeName m.title then some m.uri
      else pass1Uri placeName rest
    | none => pass1Uri placeName rest

/-- Word-overlap score of the second pass of `findMatchingUri`:
fraction of the place words occurring in the normalized title. -/
def scoreOf (placeWords : List String) (title : String) : Rat :=
  let sourceTitle := normalizeString title
  mkRat ((placeWords.filter (fun w => strIncludes sourceTitle w)).length : Int)
    (placeWords.length)

/-- Does `score` beat the current best (`!bestMatch || score > bestMatch.score`)? -/
def betterB (best : Option (String × Rat)) (score : Rat) : Bool :=
  match best with
  | none => true
  | some b => decide (b.2 < score)

/-- One step of the second-pass loop of `findMatchingUri`; the
accumulator records the current best citation's maps uri and score. -/
def pass2Step (placeWords : List String) (best : Option (String × Rat))
    (s : GroundingChunk) : Option (String × Rat) :=
  match s.maps with
  | some m =>
    if m.title != "" then
      let score := scoreOf placeWords m.title
      if decide (mkRat 1 2 ≤ score) && betterB best score then some (m.uri, score)
      else best
    else best
  | none => best

/-- `findMatchingUri` (extractCoordinates.ts). -/
def findMatchingUri (placeName : String) (sources : List GroundingChunk) : Option String :=
  let normalizedPlace := normalizeString placeName
  let isGeneric := genericKeywords.any (fun keyword => strIncludes normalizedPlace keyword)
      && decide ((jsSplitSpace normalizedPlace).length ≤ 4)
  if isGeneric then none
  else
    match pass1Uri placeName sources with
    | some uri => some uri
    | none =>
      let placeWords := (jsSplitSpace normalizedPlace).filter (fun w => 2 < w.length)
      if placeWords.isEmpty then none
      else
        match sources.foldl (pass2Step placeWords) none with
        | some best => some best.1
        | none => none

/-! ## `encodeURIComponent` and `generateNeighborhoodMapsUrl` -/

/-- Characters left unescaped by `encodeURIComponent`. -/
def uriUnreserved (c : Char) : Bool :=
  c.isAlphanum || c = '-' || c = '_' || c = '.' || c = '!' || c = '~'
    || c = '*' || c = '\x27' || c = '(' || c = ')'

/-- Upper-case hexadecimal digit. -/
def toHexDigit (n : Nat) : Char :=
  Char.ofNat (if n ≤ 9 then 48 + n else 55 + n)

/-- Percent-encode one byte. -/
def pctByte (b : Nat) : List Char := ['%', toHexDigit (b / 16), toHexDigit (b % 16)]

/-- UTF-8 bytes of a code point. -/
def utf8Bytes (n : Nat) : List Nat :=
  if n < 0x80 then [n]
  else if n < 0x800 then [0xC0 + n / 64, 0x80 + n % 64]
  else if n < 0x10000 then [0xE0 + n / 4096, 0x80 + (n / 64) % 64, 0x80 + n % 64]
  else [0xF0 + n / 262144, 0x80 + (n / 4096) % 64, 0x80 + (n / 64) % 64, 0x80 + n % 64]

/-- JavaScript `encodeURIComponent`. -/
def encodeURIComponent (s : String) : String :=
  (s.toList.flatMap (fun c =>
    if uriUnreserved c then [c] else (utf8Bytes c.toNat).flatMap pctByte)).asString

/-- `generateNeighborhoodMapsUrl` (extractCoordinates.ts). -/
def generateNeighborhoodMapsUrl (location : String) : String :=
  ("https://www.google.com/maps/search/?api=1&query=") ++ encodeURIComponent location

/-! ## `findNeighborhoodUri` -/

/-- The business-type markers rejected by `findNeighborhoodUri`. -/
def businessWords : List String := ["restaurant", "hotel", "cafe", "store", "museum"]

/-- The source-scanning loop of `findNeighborhoodUri`: the first source
whose normalized maps title equals / contains / is contained in the
normalized location and that carries no business-type marker supplies its
uri. -/
def neighborhoodScan (normalizedLocation : String) : List GroundingChunk → Option String
  | [] => none
  | s :: rest =>
    match s.maps with
    | some m =>
      if m.title != "" then
        let sourceTitle := normalizeString m.title
        if sourceTitle = normalizedLocation
            || strIncludes sourceTitle normalizedLocation
            || strIncludes normalizedLocation sourceTitle then
          if businessWords.all (fun w => !(strIncludes sourceTitle w)) then some m.uri
          else neighborhoodScan normalizedLocation rest
        else neighborhoodScan normalizedLocation rest
      else neighborhoodScan normalizedLocation rest
    | none => neighborhoodScan normalizedLocation rest

/-- `findNeighborhoodUri` (extractCoordinates.ts): a qualifying citation's
uri, or a generated maps-search URL. -/
def findNeighborhoodUri (location : String) (sources : List GroundingChunk) : String :=
  match neighborhoodScan (normalizeString location) sources with
  | some uri => uri
  | none => generateNeighborhoodMapsUrl location

/-! ## `matchSourcesToItinerary` -/

/-- Hotel branch of `matchSourcesToItinerary`: hotels are matched only if
they do not already carry a truthy uri. -/
def annotateHotel (sources : List GroundingChunk) (hotel : Hotel) : Hotel :=
  if !(oTruthy hotel.googleMapsLink) then
    { hotel with googleMapsLink := findMatchingUri hotel.name sources }
  else hotel

/-- Hidden-gem branch of `matchSourcesToItinerary`. -/
def annotateGem (sources : List GroundingChunk) (g : HiddenGem) : HiddenGem :=
  let g0 : HiddenGem := { g with googleMapsLink := orNull g.googleMapsLink }
  if oTruthy g.locationUri then { g0 with locationUri := g.locationUri }
  else if !(oTruthy g.googleMapsLink) then
    let hiddenGemUri := findMatchingUri g.name sources
    let hiddenGemLocationUri := findNeighborhoodUri g.location sources
    let g1 : HiddenGem := { g0 with googleMapsLink := orNull hiddenGemUri }
    if hiddenGemLocationUri != "" then { g1 with locationUri := some hiddenGemLocationUri }
    else g1
  else g0

/-- Item branch of `matchSourcesToItinerary`: the activity uri is matched
only when absent, the neighborhood uri is recomputed from the item's
location and assigned whenever truthy. -/
def annotateItem (sources : List GroundingChunk) (item : ItineraryItem) : ItineraryItem :=
  let activityUri := jsOr item.googleMapsLink (findMatchingUri item.activity sources)
  let locationUri := findNeighborhoodUri item.location sources
  let gem := item.hiddenGem.map (annotateGem sources)
  let r0 : ItineraryItem := { item with googleMapsLink := orNull activityUri, hiddenGem := gem }
  if locationUri != "" then { r0 with locationUri := some locationUri } else r0

/-- `matchSourcesToItinerary` (extractCoordinates.ts).  The
`JSON.parse(JSON.stringify(itinerary))` deep copy is the identity on the
itinerary value. -/
def matchSourcesToItinerary (itinerary : Itinerary) (sources : List GroundingChunk) : Itinerary :=
  { itinerary with
    recommendedHotels := itinerary.recommendedHotels.map (annotateHotel sources),
    dailyItinerary := itinerary.dailyItinerary.map
      (fun day => { day with items := day.items.map (annotateItem sources) }) }

/-! ## `extractCoordinatesFromUrl` -/

/-- The regular-expression character class `[-\d.]` of the coordinate
patterns. -/
def coordChar (c : Char) : Bool := c = '-' || c.isDigit || c = '.'

/-- Match `([-\d.]+),([-\d.]+)` at the head of `l` (used by all four
coordinate patterns; a longer first group cannot create a `,`, so the
greedy runs are the only candidates). -/
def coordTailAt (l : List Char) : Option (String × String) :=
  let (r1, rest1) := l.span coordChar
  if r1.isEmpty then none
  else
    match rest1 with
    | ',' :: rest2 =>
      let (r2, _) := rest2.span coordChar
      if r2.isEmpty then none else some (r1.asString, r2.asString)
    | _ => none

/-- Match `@([-\d.]+),([-\d.]+)(?:,(\d+))?` at the head of `l` (the
optional zoom group never constrains acceptance). -/
def fmt1At : List Char → Option (String × String)
  | '@' :: rest => coordTailAt rest
  | _ => none

/-- Match `[?&]q=([-\d.]+),([-\d.]+)(?:&|$)` at the head of `l`. -/
def fmt2At : List Char → Option (String × String)
  | c :: 'q' :: '=' :: rest =>
    if c = '?' || c = '&' then
      let (r1, rest1) := rest.span coordChar
      if r1.isEmpty then none
      else
        match rest1 with
        | ',' :: rest2 =>
          let (r2, rest3) := rest2.span coordChar
          if r2.isEmpty then none
          else
            match rest3 with
            | [] => some (r1.asString, r2.asString)
            | '&' :: _ => some (r1.asString, r2.asString)
            | _ => none
        | _ => none
    else none
  | _ => none

/-- Match `[?&]ll=([-\d.]+),([-\d.]+)` at the head of `l`. -/
def fmt3At : List Char → Option (String × String)
  | c :: 'l' :: 'l' :: '=' :: rest =>
    if c = '?' || c = '&' then coordTailAt rest else none
  | _ => none

/-- Match `center=([-\d.]+),([-\d.]+)` at the head of `l`. -/
def fmt4At : List Char → Option (String × String)
  | 'c' :: 'e' :: 'n' :: 't' :: 'e' :: 'r' :: '=' :: rest => coordTailAt rest
  | _ => none

/-- Match `[?&]cid=([^&]+)` at the head of `l`. -/
def cidAt : List Char → Option String
  | c :: 'c' :: 'i' :: 'd' :: '=' :: rest =>
    if c = '?' || c = '&' then
      let (r, _) := rest.span (fun ch => ch != '&')
      if r.isEmpty then none else some r.asString
    else none
  | _ => none

/-- Match `place_id=([^&]+)` at the head of `l`. -/
def placeIdAt : List Char → Option String
  | 'p' :: 'l' :: 'a' :: 'c' :: 'e' :: '_' :: 'i' :: 'd' :: '=' :: rest =>
    let (r, _) := rest.span (fun ch => ch != '&')
    if r.isEmpty then none else some r.asString
  | _ => none

/-- Match `[?&]query=([^&]+)` at the head of `l`. -/
def queryAt : List Char → Option String
  | c :: 'q' :: 'u' :: 'e' :: 'r' :: 'y' :: '=' :: rest =>
    if c = '?' || c = '&' then
      let (r, _) := rest.span (fun ch => ch != '&')
      if r.isEmpty then none else some r.asString
    else none
  | _ => none

/-- Match `\/place\/[^/@]+@([-\d.]+),([-\d.]+)` at the head of `l`. -/
def fmt8At : List Char → Option (String × String)
  | '/' :: 'p' :: 'l' :: 'a' :: 'c' :: 'e' :: '/' :: rest =>
    let (mid, rest1) := rest.span (fun ch => ch != '/' && ch != '@')
    if mid.isEmpty then none
    else
      match rest1 with
      | '@' :: rest2 => coordTailAt rest2
      | _ => none
  | _ => none

/-- Leftmost match: try the pattern at every position of the string, left
to right, as JavaScript `String.prototype.match` does. -/
def firstMatch {α : Type} (f : List Char → Option α) : List Char → Option α
  | [] => none
  | c :: rest =>
    match f (c :: rest) with
    | some r => some r
    | none => firstMatch f rest

/-- Digit run value. -/
def digitsVal (l : List Char) : Nat :=
  l.foldl (fun acc d => 10 * acc + (d.toNat - 48)) 0

/-- JavaScript `parseFloat`, as an exact rational (`none` is `NaN`):
optional sign, decimal mantissa, optional exponent; the longest valid
numeric prefix is parsed and trailing garbage is ignored.  (`Infinity`
cannot arise from the `[-\d.]` capture groups this is applied to.) -/
def jsParseFloat (s : String) : Option Rat :=
  let l := s.toList.dropWhile jsSpace
  let (sgn, l1) : Int × List Char :=
    match l with
    | '-' :: r => (-1, r)
    | '+' :: r => (1, r)
    | _ => (1, l)
  let (ip, l2) := l1.span Char.isDigit
  let (fp, l3) : List Char × List Char :=
    match l2 with
    | '.' :: r => r.span Char.isDigit
    | _ => ([], l2)
  if ip.isEmpty && fp.isEmpty then none
  else
    let num : Int := sgn * ((digitsVal ip * 10 ^ fp.length + digitsVal fp : Nat) : Int)
    let den : Nat := 10 ^ fp.length
    let expVal : Option Int :=
      match l3 with
      | 'e' :: r =>
        let (es, r1) : Int × List Char :=
          match r with
          | '-' :: rr => (-1, rr)
          | '+' :: rr => (1, rr)
          | _ => (1, r)
        let (ed, _) := r1.span Char.isDigit
        if ed.isEmpty then none else some (es * (digitsVal ed : Int))
      | 'E' :: r =>
        let (es, r1) : Int × List Char :=
          match r with
          | '-' :: rr => (-1, rr)
          | '+' :: rr => (1, rr)
          | _ => (1, r)
        let (ed, _) := r1.span Char.isDigit
        if ed.isEmpty then none else some (es * (digitsVal ed : Int))
      | _ => none
    match expVal with
    | some e =>
      if 0 ≤ e then some (mkRat (num * ((10 ^ e.toNat : Nat) : Int)) den)
      else some (mkRat num (den * 10 ^ (-e).toNat))
    | none => some (mkRat num den)

/-- `CoordinateResult` (extractCoordinates.ts). -/
structure CoordinateResult where
  coordinates : Option (Rat × Rat)
  needsGeocoding : Bool
  geocodingQuery : Option String
  placeId : Option String
  cid : Option String
deriving DecidableEq, Repr

/-- The `{ coordinates: null, needsGeocoding: false }` result. -/
def noResult : CoordinateResult :=
  { coordinates := none, needsGeocoding := false,
    geocodingQuery := none, placeId := none, cid := none }

/-- The validity check applied to every parsed coordinate pair. -/
def validPair (lat lng : Rat) : Bool :=
  decide (mkRat (-90) 1 ≤ lat) && decide (lat ≤ mkRat 90 1)
    && decide (mkRat (-180) 1 ≤ lng) && decide (lng ≤ mkRat 180 1)

/-- A coordinate format yields a result only when both captures parse and
lie in range; otherwise the code falls through to the next format. -/
def tryCoordPair (m : Option (String × String)) : Option CoordinateResult :=
  match m with
  | none => none
  | some (s1, s2) =>
    match jsParseFloat s1, jsParseFloat s2 with
    | some lat, some lng =>
      if validPair lat lng then some { noResult with coordinates := some (lat, lng) }
      else none
    | _, _ => none

/-! ### `decodeURIComponent` -/

/-- Hexadecimal digit value. -/
def hexVal (c : Char) : Option Nat :=
  let n := c.toNat
  if 48 ≤ n ∧ n ≤ 57 then some (n - 48)
  else if 65 ≤ n ∧ n ≤ 70 then some (n - 55)
  else if 97 ≤ n ∧ n ≤ 102 then some (n - 87)
  else none

/-- Token stream of `decodeURIComponent`: raw characters and `%XX` bytes;
`none` models a thrown `URIError`. -/
inductive PctTok where
  | raw (c : Char)
  | byte (b : Nat)
deriving DecidableEq, Repr

/-- Tokenize the percent-escapes. -/
def pctTokens : List Char → Option (List PctTok)
  | [] => some []
  | '%' :: h1 :: h2 :: rest =>
    match hexVal h1, hexVal h2 with
    | some a, some b => (pctTokens rest).map (PctTok.byte (a * 16 + b) :: ·)
    | _, _ => none
  | '%' :: _ => none
  | c :: rest => (pctTokens rest).map (PctTok.raw c :: ·)

/-- Decode the token stream, reassembling UTF-8 byte sequences; `none`
models a thrown `URIError`. -/
def decodeToks : List PctTok → Option (List Char)
  | [] => some []
  | PctTok.raw c :: rest => (decodeToks rest).map (c :: ·)
  | PctTok.byte b :: rest =>
    if b < 0x80 then (decodeToks rest).map (Char.ofNat b :: ·)
    else if b < 0xC2 then none
    else if b < 0xE0 then
      match rest with
      | PctTok.byte b1 :: rest1 =>
        if 0x80 ≤ b1 ∧ b1 < 0xC0 then
          (decodeToks rest1).map (Char.ofNat ((b - 0xC0) * 64 + (b1 - 0x80)) :: ·)
        else none
      | _ => none
    else if b < 0xF0 then
      match rest with
      | PctTok.byte b1 :: PctTok.byte b2 :: rest2 =>
        if (0x80 ≤ b1 ∧ b1 < 0xC0) ∧ (0x80 ≤ b2 ∧ b2 < 0xC0) then
          let cp := (b - 0xE0) * 4096 + (b1 - 0x80) * 64 + (b2 - 0x80)
          if 0x800 ≤ cp ∧ (cp < 0xD800 ∨ 0xDFFF < cp) then
            (decodeToks rest2).map (Char.ofNat cp :: ·)
          else none
        else none
      | _ => none
    else if b < 0xF5 then
      match rest with
      | PctTok.byte b1 :: PctTok.byte b2 :: PctTok.byte b3 :: rest3 =>
        if (0x80 ≤ b1 ∧ b1 < 0xC0) ∧ (0x80 ≤ b2 ∧ b2 < 0xC0) ∧ (0x80 ≤ b3 ∧ b3 < 0xC0) then
          let cp := (b - 0xF0) * 262144 + (b1 - 0x80) * 4096 + (b2 - 0x80) * 64 + (b3 - 0x80)
          if 0x10000 ≤ cp ∧ cp ≤ 0x10FFFF then
            (decodeToks rest3).map (Char.ofNat cp :: ·)
          else none
        else none
      | _ => none
    else none

/-- JavaScript `decodeURIComponent`; `none` models a thrown `URIError`. -/
def decodeURIComp (s : String) : Option String :=
  match pctTokens s.toList with
  | some toks => (decodeToks toks).map List.asString
  | none => none

/-- The `cid=` / `place_id=` / `query=` branches call
`decodeURIComponent` inside the `try` block: a decode error is caught and
the whole extraction returns the no-result value without trying the
remaining formats. -/
def geocodeFrom (capture : Option String) (mk : String → CoordinateResult) :
    Option CoordinateResult :=
  match capture with
  | none => none
  | some cs =>
    match decodeURIComp cs with
    | some d => some (mk d)
    | none => some noResult

/-- `extractCoordinatesFromUrl` (extractCoordinates.ts): the eight
formats tried in source order, first success wins; `!url` rejects the
empty string. -/
def extractCoordinatesFromUrl (url : String) : CoordinateResult :=
  if url = "" then noResult
  else
    let l := url.toList
    ((tryCoordPair (firstMatch fmt1At l)) <|>
     (tryCoordPair (firstMatch fmt2At l)) <|>
     (tryCoordPair (firstMatch fmt3At l)) <|>
     (tryCoordPair (firstMatch fmt4At l)) <|>
     (geocodeFrom (firstMatch cidAt l) (fun cid =>
       { noResult with needsGeocoding := true, cid := some cid,
                       geocodingQuery := some (("cid:") ++ cid) })) <|>
     (geocodeFrom (firstMatch placeIdAt l) (fun pid =>
       { noResult with needsGeocoding := true, placeId := some pid,
                       geocodingQuery := some pid })) <|>
     (geocodeFrom (firstMatch queryAt l) (fun q =>
       { noResult with needsGeocoding := true, geocodingQuery := some q })) <|>
     (tryCoordPair (firstMatch fmt8At l))).getD noResult

/-! ## `geocodeQuery` dispatch

`geocodeQuery` is asynchronous I/O against the external Google Maps
geocoder.  We model the geocoder as an oracle from requests to optional
coordinates and embed the dispatch logic that chooses the request (the
code after the API-availability guards, lines 152-205 of
extractCoordinates.ts). -/

/-- A request issued to the external geocoder: geocode by free-text
address or by place id. -/
inductive GeocodeRequest where
  | byAddress (address : String)
  | byPlaceId (pid : String)
deriving DecidableEq, Repr

/-- JavaScript `s.startsWith(pre)`. -/
def strStartsWith (s pre : String) : Bool := prefixAt pre.toList s.toList

/-- The request `geocodeQuery` issues for a query and optional place
name: for `cid:` queries the address is the place name when truthy, else
the query with the first `cid:` removed; `ChIJ…` queries geocode by place
id; anything else geocodes by address. -/
def geocodeRequestFor (query : String) (placeName : Option String) : GeocodeRequest :=
  if strStartsWith query ("cid:") then
    let nameToGeocode :=
      match placeName with
      | some p => if p != "" then p else replaceFirst query ("cid:") ("")
      | none => replaceFirst query ("cid:") ("")
    GeocodeRequest.byAddress nameToGeocode
  else if strStartsWith query ("ChIJ") then GeocodeRequest.byPlaceId query
  else GeocodeRequest.byAddress query

/-- `geocodeQuery` (extractCoordinates.ts), given the external geocoder
as an oracle: it returns whatever the geocoder answers for the dispatched
request (`null` on failure, never an exception). -/
def geocodeQuery (geocoder : GeocodeRequest → Option (Rat × Rat))
    (query : String) (placeName : Option String) : Option (Rat × Rat) :=
  geocoder (geocodeRequestFor query placeName)

/-! ## Specification-side definitions

Predicates and relations used to state the claims; they are read off the
claims and the data model, not used by the embedded code. -/

/-- The `placeWords` local of `findMatchingUri`: words of the normalized
place name longer than two characters. -/
def placeWordsOf (placeName : String) : List String :=
  (jsSplitSpace (normalizeString placeName)).filter (fun w => 2 < w.length)

/-- The `isGeneric` guard of `findMatchingUri`. -/
def isGenericB (placeName : String) : Bool :=
  genericKeywords.any (fun keyword => strIncludes (normalizeString placeName) keyword)
    && decide ((jsSplitSpace (normalizeString placeName)).length ≤ 4)

/-- The fallback-pass score a citation receives in `findMatchingUri`
(`none` when the citation has no truthy maps title and is skipped). -/
def chunkScore (placeWords : List String) (c : GroundingChunk) : Option Rat :=
  match c.maps with
  | some m => if m.title != "" then some (scoreOf placeWords m.title) else none
  | none => none

/-- A hidden gem carries no empty-string link values. -/
def gemCleanB (g : HiddenGem) : Bool :=
  (g.googleMapsLink != some "") && (g.locationUri != some "")

/-- An item carries no empty-string map link and its gem, if any, is
clean. -/
def itemCleanB (i : ItineraryItem) : Bool :=
  (i.googleMapsLink != some "") && i.hiddenGem.all gemCleanB

/-- No hotel or item of the itinerary carries an empty-string map link. -/
def itinCleanB (it : Itinerary) : Bool :=
  it.recommendedHotels.all (fun h => h.googleMapsLink != some "")
    && it.dailyItinerary.all (fun d => d.items.all itemCleanB)

/-- Every maps citation of the list has a non-empty uri. -/
def mapsUriCleanB (c : GroundingChunk) : Bool :=
  match c.maps with
  | some m => m.uri != ""
  | none => true

/-- Every maps citation of the list has a non-empty uri. -/
def sourcesCleanB (s : List GroundingChunk) : Bool := s.all mapsUriCleanB

/-- Annotation preserves a hotel's data fields and its non-null map
link. -/
def HotelPreserved (h h' : Hotel) : Prop :=
  h'.name = h.name ∧ h'.description = h.description ∧ h'.location = h.location ∧
    (h.googleMapsLink ≠ none → h'.googleMapsLink = h.googleMapsLink)

/-- Annotation preserves a hidden gem's data fields, its non-null map
link and its non-null neighborhood link. -/
def GemPreserved (g g' : HiddenGem) : Prop :=
  g'.name = g.name ∧ g'.location = g.location ∧ g'.description = g.description ∧
    (g.googleMapsLink ≠ none → g'.googleMapsLink = g.googleMapsLink) ∧
    (g.locationUri ≠ none → g'.locationUri = g.locationUri)

/-- Annotation preserves an item's data fields and non-null map link,
recomputes its neighborhood link, and maps its hidden gem through the gem
annotation, preserving presence. -/
def ItemPreserved (s : List GroundingChunk) (i i' : ItineraryItem) : Prop :=
  i'.time = i.time ∧ i'.activity = i.activity ∧ i'.location = i.location ∧
    i'.description = i.description ∧
    (i.googleMapsLink ≠ none → i'.googleMapsLink = i.googleMapsLink) ∧
    i'.locationUri = some (findNeighborhoodUri i.location s) ∧
    (i.hiddenGem = none → i'.hiddenGem = none) ∧
    (∀ g, i.hiddenGem = some g → ∃ g', i'.hiddenGem = some g' ∧ GemPreserved g g')

/-- Annotation preserves a day's label and title and relates its items
pointwise (hence in the same number and order). -/
def DayPreserved (s : List GroundingChunk) (d d' : DailyPlan) : Prop :=
  d'.day = d.day ∧ d'.title = d.title ∧ List.Forall₂ (ItemPreserved s) d.items d'.items

/-- Conclusion of the amended claim C2: annotation preserves the trip
fields, all collection cardinalities and orders, every non-link field and
every non-null map link; item neighborhood links are recomputed. -/
def C2Conclusion (it : Itinerary) (s : List GroundingChunk) : Prop :=
  (matchSourcesToItinerary it s).tripTitle = it.tripTitle ∧
  (matchSourcesToItinerary it s).vibeCheck = it.vibeCheck ∧
  (matchSourcesToItinerary it s).packingList = it.packingList ∧
  (matchSourcesToItinerary it s).recommendedHotels.length = it.recommendedHotels.length ∧
  (matchSourcesToItinerary it s).dailyItinerary.length = it.dailyItinerary.length ∧
  List.Forall₂ HotelPreserved it.recommendedHotels
    (matchSourcesToItinerary it s).recommendedHotels ∧
  List.Forall₂ (DayPreserved s) it.dailyItinerary
    (matchSourcesToItinerary it s).dailyItinerary

/-- All link fields of the claim-C3 hypothesis are non-null
(the original claim's "fully populated" condition). -/
def allLinksPresentB (it : Itinerary) : Bool :=
  it.recommendedHotels.all (fun h => h.googleMapsLink.isSome)
    && it.dailyItinerary.all (fun d => d.items.all (fun i =>
        i.googleMapsLink.isSome && i.locationUri.isSome
          && i.hiddenGem.all (fun g => g.googleMapsLink.isSome && g.locationUri.isSome)))

/-- Hypothesis of the amended claim C3: all map links truthy, every
item's neighborhood link already equal to the recomputed one, every gem
fully truthy. -/
def fullyPopulatedReadyB (it : Itinerary) (s : List GroundingChunk) : Bool :=
  it.recommendedHotels.all (fun h => oTruthy h.googleMapsLink)
    && it.dailyItinerary.all (fun d => d.items.all (fun i =>
        oTruthy i.googleMapsLink
          && (i.locationUri == some (findNeighborhoodUri i.location s))
          && i.hiddenGem.all (fun g => oTruthy g.googleMapsLink && oTruthy g.locationUri)))

/-- How annotation treats an item's hidden gem (amended claim C7): kept
links are kept; the neighborhood link is filled in only when the gem has
neither a neighborhood link nor a map link; a gem with a map link and no
neighborhood link keeps the neighborhood link absent. -/
def GemOutcome (s : List GroundingChunk) (i i' : ItineraryItem) : Prop :=
  (i.hiddenGem = none → i'.hiddenGem = none) ∧
  (∀ g, i.hiddenGem = some g → ∃ g', i'.hiddenGem = some g' ∧
    (g.locationUri ≠ none → g'.locationUri = g.locationUri) ∧
    (g.locationUri = none → g.googleMapsLink = none →
      g'.locationUri = some (findNeighborhoodUri g.location s)) ∧
    (g.locationUri = none → g.googleMapsLink ≠ none → g'.locationUri = none))

/-- Conclusion of the amended claim C7: every annotated item's
neighborhood link is populated with the recomputed neighborhood
resolution of its area label, and hidden gems follow `GemOutcome`. -/
def C7Conclusion (it : Itinerary) (s : List GroundingChunk) : Prop :=
  (∀ d' ∈ (matchSourcesToItinerary it s).dailyItinerary, ∀ i' ∈ d'.items,
    i'.locationUri = some (findNeighborhoodUri i'.location s)) ∧
  List.Forall₂ (fun d d' => List.Forall₂ (GemOutcome s) d.items d'.items)
    it.dailyItinerary (matchSourcesToItinerary it s).dailyItinerary

/-! ## Concrete fixtures -/

/-- The hotel of the spec's end-to-end scenario (claim C1). -/
def c1Hotel : Hotel :=
  { name := "Park Hyatt Tokyo", description := "Luxury hotel",
    location := "Shinjuku", googleMapsLink := none }

/-- The citation list of the spec's end-to-end scenario (claim C1). -/
def c1Sources : List GroundingChunk :=
  [{ web := none,
     maps := some { uri := "https://maps.google.com/?cid=123",
                    title := "Park Hyatt Tokyo", placeAnswerSources := none } }]

/-- The itinerary of the spec's end-to-end scenario (claim C1). -/
def c1Itinerary : Itinerary :=
  { tripTitle := "Tokyo Trip", vibeCheck := "", packingList := [],
    recommendedHotels := [c1Hotel], dailyItinerary := [] }

/-- Item with a non-null neighborhood link (counterexample to C2). -/
def c2CxItem : ItineraryItem :=
  { time := "09:00", activity := "Visit Tokyo Tower", location := "Shibuya",
    description := "", googleMapsLink := some ("https://maps.example/1"),
    locationUri := some ("old"), hiddenGem := none }

/-- Itinerary whose single item already carries a neighborhood link
(counterexample to C2). -/
def c2CxIt : Itinerary :=
  { tripTitle := "T", vibeCheck := "", packingList := [],
    recommendedHotels := [], dailyItinerary := [⟨"Day 1", "D", [c2CxItem]⟩] }

/-- Small clean itinerary for the witnesses of C2. -/
def w2It : Itinerary :=
  { tripTitle := "W", vibeCheck := "", packingList := ["socks"],
    recommendedHotels := [{ name := "Tokyo Tower Inn", description := "",
                            location := "Minato", googleMapsLink := none }],
    dailyItinerary :=
      [⟨"Day 1", "Start",
        [{ time := "10:00", activity := "Tokyo Tower", location := "Minato",
           description := "", googleMapsLink := none, locationUri := none,
           hiddenGem := some { name := "Tiny Shrine", location := "Minato",
                               description := "", googleMapsLink := none,
                               locationUri := none } }]⟩] }

/-- Citation list for the witnesses of C2. -/
def w2S : List GroundingChunk :=
  [{ web := none,
     maps := some { uri := "https://maps.google.com/?cid=77",
                    title := "Tokyo Tower", placeAnswerSources := none } }]

/-- Fully populated itinerary (in the original claim-C3 sense) whose item
neighborhood link differs from the recomputed one (counterexample to C3). -/
def c3CxIt : Itinerary :=
  { tripTitle := "T", vibeCheck := "", packingList := [],
    recommendedHotels := [{ name := "H", description := "", location := "L",
                            googleMapsLink := some ("https://h") }],
    dailyItinerary :=
      [⟨"Day 1", "D",
        [{ time := "09:00", activity := "A", location := "Shibuya",
           description := "", googleMapsLink := some ("https://a"),
           locationUri := some ("x"),
           hiddenGem := some { name := "G", location := "Shibuya", description := "",
                               googleMapsLink := some ("https://g"),
                               locationUri := some ("y") } }]⟩] }

/-- Fully populated itinerary whose neighborhood links already equal the
recomputed resolution (witness for the amended C3). -/
def c3ReadyIt : Itinerary :=
  { tripTitle := "T", vibeCheck := "", packingList := [],
    recommendedHotels := [{ name := "H", description := "", location := "L",
                            googleMapsLink := some ("https://h") }],
    dailyItinerary :=
      [⟨"Day 1", "D",
        [{ time := "09:00", activity := "A", location := "Shibuya",
           description := "", googleMapsLink := some ("https://a"),
           locationUri := some ("https://www.google.com/maps/search/?api=1&query=Shibuya"),
           hiddenGem := some { name := "G", location := "Shibuya", description := "",
                               googleMapsLink := some ("https://g"),
                               locationUri := some ("https://g2") } }]⟩] }

/-- A geocoder oracle that knows the address "123" (counterexample to C6). -/
def c6Geocoder : GeocodeRequest → Option (Rat × Rat) :=
  fun r => if r = GeocodeRequest.byAddress ("123") then some (mkRat 1 1, mkRat 2 1) else none

/-- Itinerary whose item's hidden gem has a map link but no neighborhood
link (counterexample to C7). -/
def c7CxIt : Itinerary :=
  { tripTitle := "T", vibeCheck := "", packingList := [],
    recommendedHotels := [],
    dailyItinerary :=
      [⟨"Day 1", "D",
        [{ time := "09:00", activity := "Visit Tokyo Tower", location := "Shibuya",
           description := "", googleMapsLink := none, locationUri := none,
           hiddenGem := some { name := "G", location := "Shibuya", description := "",
                               googleMapsLink := some ("https://g"),
                               locationUri := none } }]⟩] }

/-- Itinerary for the witness of the amended C7: one item whose gem
lacks both links, processed with no citations. -/
def w7It : Itinerary :=
  { tripTitle := "W7", vibeCheck := "", packingList := [],
    recommendedHotels := [],
    dailyItinerary :=
      [⟨"Day 1", "D",
        [{ time := "08:00", activity := "Tokyo Tower", location := "Minato",
           description := "", googleMapsLink := none, locationUri := none,
           hiddenGem := some { name := "Back Alley", location := "Minato",
                               description := "", googleMapsLink := none,
                               locationUri := none } }]⟩] }

/-- First tying citation of the C8 witness scenario. -/
def twrChunk1 : GroundingChunk :=
  { web := none,
    maps := some { uri := "https://maps.google.com/a",
                   title := "Tower Records Shop", placeAnswerSources := none } }

/-- Second tying citation of the C8 witness scenario. -/
def twrChunk2 : GroundingChunk :=
  { web := none,
    maps := some { uri := "https://maps.google.com/b",
                   title := "Tower Plaza Deck", placeAnswerSources := none } }

/-- A citation that carries only a web payload (claim C10). -/
def webOnlyChunk : GroundingChunk :=
  { web := some { uri := "https://example.com", title := "Tokyo Tower" }, maps := none }

/-! ## Helper lemmas -/

/-- A uri produced by the neighborhood scan comes from a maps citation of
the list. -/
theorem neighborhoodScan_mem {nl : String} : ∀ {sources : List GroundingChunk} {u : String},
    neighborhoodScan nl sources = some u →
    ∃ c ∈ sources, ∃ m, c.maps = some m ∧ m.uri = u := by
  intro sources
  induction sources with
  | nil => intro u h; simp [neighborhoodScan] at h
  | cons s rest ih =>
    intro u h
    cases hm : s.maps with
    | none =>
      simp only [neighborhoodScan, hm] at h
      obtain ⟨c, hc, m', hcm, hu⟩ := ih h
      exact ⟨c, List.mem_cons_of_mem s hc, m', hcm, hu⟩
    | some m =>
      simp only [neighborhoodScan, hm] at h
      split at h
      · split at h
        · split at h
          · exact ⟨s, List.mem_cons_self s rest, m, hm, Option.some.inj h⟩
          · obtain ⟨c, hc, m', hcm, hu⟩ := ih h
            exact ⟨c, List.mem_cons_of_mem s hc, m', hcm, hu⟩
        · obtain ⟨c, hc, m', hcm, hu⟩ := ih h
          exact ⟨c, List.mem_cons_of_mem s hc, m', hcm, hu⟩
      · obtain ⟨c, hc, m', hcm, hu⟩ := ih h
        exact ⟨c, List.mem_cons_of_mem s hc, m', hcm, hu⟩

/-- A uri produced by the first matching pass comes from a maps citation
of the list. -/
theorem pass1Uri_mem {p : String} : ∀ {sources : List GroundingChunk} {u : String},
    pass1Uri p sources = some u →
    ∃ c ∈ sources, ∃ m, c.maps = some m ∧ m.uri = u := by
  intro sources
  induction sources with
  | nil => intro u h; simp [pass1Uri] at h
  | cons s rest ih =>
    intro u h
    cases hm : s.maps with
    | none =>
      simp only [pass1Uri, hm] at h
      obtain ⟨c, hc, m', hcm, hu⟩ := ih h
      exact ⟨c, List.mem_cons_of_mem s hc, m', hcm, hu⟩
    | some m =>
      simp only [pass1Uri, hm] at h
      split at h
      · exact ⟨s, List.mem_cons_self s rest, m, hm, Option.some.inj h⟩
      · obtain ⟨c, hc, m', hcm, hu⟩ := ih h
        exact ⟨c, List.mem_cons_of_mem s hc, m', hcm, hu⟩

/-- A uri held by the second-pass accumulator comes from a maps citation
of the scanned list or was already in the accumulator. -/
theorem foldl_pass2_mem {pw : List String} :
    ∀ {sources : List GroundingChunk} {acc : Option (String × Rat)} {u : String} {sc : Rat},
    sources.foldl (pass2Step pw) acc = some (u, sc) →
    (∃ c ∈ sources, ∃ m, c.maps = some m ∧ m.uri = u) ∨ acc = some (u, sc) := by
  intro sources
  induction sources with
  | nil => intro acc u sc h; right; exact h
  | cons s rest ih =>
    intro acc u sc h
    rw [List.foldl_cons] at h
    rcases ih h with hmem | hacc
    · obtain ⟨c, hc, m', hcm, hu⟩ := hmem
      exact Or.inl ⟨c, List.mem_cons_of_mem s hc, m', hcm, hu⟩
    · cases hm : s.maps with
      | none => right; rw [pass2Step, hm] at hacc; exact hacc
      | some m =>
        simp only [pass2Step, hm] at hacc
        split at hacc
        · split at hacc
          · exact Or.inl ⟨s, List.mem_cons_self s rest, m, hm,
              congrArg Prod.fst (Option.some.inj hacc)⟩
          · exact Or.inr hacc
        · exact Or.inr hacc

/-- Citations without a maps payload are skipped by the first pass. -/
theorem pass1Uri_none_of_no_maps {p : String} : ∀ {sources : List GroundingChunk},
    (∀ c ∈ sources, c.maps = none) → pass1Uri p sources = none := by
  intro sources
  induction sources with
  | nil => intro _; rfl
  | cons s rest ih =>
    intro h
    have hm : s.maps = none := h s (List.mem_cons_self s rest)
    simp only [pass1Uri, hm]
    exact ih (fun c hc => h c (List.mem_cons_of_mem s hc))

/-- Citations without a maps payload are skipped by the second pass. -/
theorem foldl_pass2_of_no_maps {pw : List String} :
    ∀ {sources : List GroundingChunk} {acc : Option (String × Rat)},
    (∀ c ∈ sources, c.maps = none) → sources.foldl (pass2Step pw) acc = acc := by
  intro sources
  induction sources with
  | nil => intro acc _; rfl
  | cons s rest ih =>
    intro acc h
    have hm : s.maps = none := h s (List.mem_cons_self s rest)
    rw [List.foldl_cons]
    have hstep : pass2Step pw acc s = acc := by rw [pass2Step, hm]
    rw [hstep]
    exact ih (fun c hc => h c (List.mem_cons_of_mem s hc))

/-- Citations without a maps payload are skipped by the neighborhood
scan. -/
theorem neighborhoodScan_none_of_no_maps {nl : String} : ∀ {sources : List GroundingChunk},
    (∀ c ∈ sources, c.maps = none) → neighborhoodScan nl sources = none := by
  intro sources
  induction sources with
  | nil => intro _; rfl
  | cons s rest ih =>
    intro h
    have hm : s.maps = none := h s (List.mem_cons_self s rest)
    simp only [neighborhoodScan, hm]
    exact ih (fun c hc => h c (List.mem_cons_of_mem s hc))

/-! ## Claim theorems -/

/-- C1: the spec's end-to-end scenario fails on the code.  For the
itinerary with one hotel "Park Hyatt Tokyo" (map link null) and one maps
citation titled "Park Hyatt Tokyo", `matchSourcesToItinerary` leaves the
hotel's map link null instead of the citation's uri: the generic-phrase
filter of `findMatchingUri` tests its keywords with substring containment
and the keyword "at" occurs inside "hyatt", so the hotel name is
discarded as generic. -/
theorem c1_end_to_end_fails :
    c1Hotel.googleMapsLink = none ∧
    (matchSourcesToItinerary c1Itinerary c1Sources).recommendedHotels.map
      Hotel.googleMapsLink = [none] ∧
    findMatchingUri ("Park Hyatt Tokyo") c1Sources = none ∧
    strIncludes (normalizeString ("Park Hyatt Tokyo")) ("at") = true := by decide

/-- C9: `findNeighborhoodUri` always returns a usable URL — either the
uri of one of the maps citations or the generated maps-search URL; in
particular on "Shibuya" with no citations it returns the URL-encoded
maps-search link, which contains "Shibuya". -/
theorem c9_neighborhood_always_url :
    (∀ (location : String) (sources : List GroundingChunk),
      (∃ c ∈ sources, ∃ m, c.maps = some m ∧ findNeighborhoodUri location sources = m.uri) ∨
        findNeighborhoodUri location sources = generateNeighborhoodMapsUrl location) ∧
    findNeighborhoodUri ("Shibuya") [] =
      ("https://www.google.com/maps/search/?api=1&query=Shibuya") ∧
    strIncludes (findNeighborhoodUri ("Shibuya") []) ("Shibuya") = true := by
  refine ⟨?_, by decide, by decide⟩
  intro location sources
  cases hscan : neighborhoodScan (normalizeString location) sources with
  | none =>
    right
    unfold findNeighborhoodUri
    rw [hscan]
  | some u =>
    left
    obtain ⟨c, hc, m, hcm, hu⟩ := neighborhoodScan_mem hscan
    refine ⟨c, hc, m, hcm, ?_⟩
    unfold findNeighborhoodUri
    rw [hscan]
    exact hu.symm

/-- C10: the source matcher only ever surfaces the uri of a citation's
maps payload: every uri returned by `findMatchingUri` belongs to a maps
payload of the citation list, and over a list of citations with no maps
payload (web-only citations) `findMatchingUri` never matches and
`findNeighborhoodUri` falls back to the generated search URL. -/
theorem c10_only_maps_payload :
    (∀ (placeName : String) (sources : List GroundingChunk) (r : String),
        findMatchingUri placeName sources = some r →
        ∃ c ∈ sources, ∃ m, c.maps = some m ∧ m.uri = r) ∧
    (∀ (placeName : String) (sources : List GroundingChunk),
        (∀ c ∈ sources, c.maps = none) →
        findMatchingUri placeName sources = none ∧
        findNeighborhoodUri placeName sources = generateNeighborhoodMapsUrl placeName) := by
  constructor
  · intro placeName sources r h
    simp only [findMatchingUri] at h
    split at h
    · exact absurd h (by simp)
    · split at h
      · rename_i uri hp1
        obtain ⟨c, hc, m, hcm, hu⟩ := pass1Uri_mem hp1
        exact ⟨c, hc, m, hcm, hu.trans (Option.some.inj h)⟩
      · split at h
        · exact absurd h (by simp)
        · split at h
          · rename_i best hfold
            rcases foldl_pass2_mem hfold with hmem | habs
            · obtain ⟨c, hc, m, hcm, hu⟩ := hmem
              refine ⟨c, hc, m, hcm, ?_⟩
              rw [hu]
              exact Option.some.inj h
            · exact absurd habs (by simp)
          · exact absurd h (by simp)
  · intro placeName sources hall
    constructor
    · simp only [findMatchingUri]
      split
      · rfl
      · rw [pass1Uri_none_of_no_maps hall]
        split
        · rename_i uri heq
          exact absurd heq (by simp)
        · split
          · rfl
          · rw [foldl_pass2_of_no_maps hall]
    · unfold findNeighborhoodUri
      rw [neighborhoodScan_none_of_no_maps hall]

/-- Witness for C10: at the place name "Tokyo Tower" the matcher returns
the maps uri of the first tying citation (which the theorem traces to a
maps payload of the list), and over the single web-only citation the
matcher returns nothing while the neighborhood resolver generates a
search URL. -/
theorem c10_only_maps_payload_witness :
    (∃ c ∈ [twrChunk1, twrChunk2], ∃ m, c.maps = some m ∧
      m.uri = ("https://maps.google.com/a")) ∧
    (findMatchingUri ("Tokyo Tower") [webOnlyChunk] = none ∧
      findNeighborhoodUri ("Tokyo Tower") [webOnlyChunk] =
        generateNeighborhoodMapsUrl ("Tokyo Tower")) :=
  ⟨c10_only_maps_payload.1 ("Tokyo Tower") [twrChunk1, twrChunk2]
      ("https://maps.google.com/a") (by decide),
   c10_only_maps_payload.2 ("Tokyo Tower") [webOnlyChunk] (by decide)⟩

/-- The range check of the extractor, spelled with rational literals. -/
theorem validPair_iff {lat lng : Rat} :
    validPair lat lng = true ↔
      ((-90 : Rat) ≤ lat ∧ lat ≤ 90 ∧ (-180 : Rat) ≤ lng ∧ lng ≤ 180) := by
  have e1 : mkRat (-90) 1 = (-90 : Rat) := by decide
  have e2 : mkRat 90 1 = (90 : Rat) := by decide
  have e3 : mkRat (-180) 1 = (-180 : Rat) := by decide
  have e4 : mkRat 180 1 = (180 : Rat) := by decide
  simp [validPair, e1, e2, e3, e4, and_assoc]

/-- When the `@lat,lng` pattern (format 1) matches with both captures
parsing to in-range values, the extractor returns exactly those
coordinates: format 1 is tried first, so nothing can pre-empt it. -/
theorem extract_fmt1_valid {url s1 s2 : String} {lat lng : Rat}
    (h1 : firstMatch fmt1At url.toList = some (s1, s2))
    (hlat : jsParseFloat s1 = some lat) (hlng : jsParseFloat s2 = some lng)
    (hv : validPair lat lng = true) :
    extractCoordinatesFromUrl url = { noResult with coordinates := some (lat, lng) } := by
  have hurl : url ≠ "" := by
    intro he
    rw [he] at h1
    simp [firstMatch] at h1
  simp only [extractCoordinatesFromUrl, if_neg hurl, h1, tryCoordPair, hlat, hlng, hv,
    if_true]
  rfl

/-- C5: for a link whose only recognized pattern is an `@`-prefixed
coordinate pair, the extractor returns exactly the parsed pair when both
values are in range, and the no-result value (no coordinates, no
geocoding) when either value is out of range — never a clamped or wrapped
value. -/
theorem c5_at_coordinate_extraction (url s1 s2 : String) (lat lng : Rat)
    (h1 : firstMatch fmt1At url.toList = some (s1, s2))
    (hlat : jsParseFloat s1 = some lat) (hlng : jsParseFloat s2 = some lng) :
    (((-90 : Rat) ≤ lat ∧ lat ≤ 90 ∧ (-180 : Rat) ≤ lng ∧ lng ≤ 180) →
      extractCoordinatesFromUrl url = { noResult with coordinates := some (lat, lng) }) ∧
    (¬((-90 : Rat) ≤ lat ∧ lat ≤ 90 ∧ (-180 : Rat) ≤ lng ∧ lng ≤ 180) →
      firstMatch fmt2At url.toList = none → firstMatch fmt3At url.toList = none →
      firstMatch fmt4At url.toList = none → firstMatch cidAt url.toList = none →
      firstMatch placeIdAt url.toList = none → firstMatch queryAt url.toList = none →
      firstMatch fmt8At url.toList = none →
      extractCoordinatesFromUrl url = noResult) := by
  have hurl : url ≠ "" := by
    intro he
    rw [he] at h1
    simp [firstMatch] at h1
  constructor
  · intro hr
    exact extract_fmt1_valid h1 hlat hlng (validPair_iff.mpr hr)
  · intro hr h2 h3 h4 h5 h6 h7 h8
    have hv : validPair lat lng = false := by
      cases hvb : validPair lat lng
      · rfl
      · exact absurd (validPair_iff.mp hvb) hr
    simp only [extractCoordinatesFromUrl, if_neg hurl, h1, h2, h3, h4, h5, h6, h7, h8,
      tryCoordPair, hlat, hlng, hv, geocodeFrom]
    rfl

/-- Witness for C5: a valid `@40.7,-74.0` link yields exactly those
coordinates; an out-of-range `@95.5,10.0` link, matching no other
pattern, yields the no-result value. -/
theorem c5_at_coordinate_extraction_witness :
    extractCoordinatesFromUrl ("https://x.com/@40.7,-74.0,15z") =
      { noResult with coordinates := some (mkRat 407 10, mkRat (-74) 1) } ∧
    extractCoordinatesFromUrl ("@95.5,10.0") = noResult :=
  ⟨(c5_at_coordinate_extraction ("https://x.com/@40.7,-74.0,15z") ("40.7") ("-74.0")
      (mkRat 407 10) (mkRat (-74) 1) (by decide) (by decide) (by decide)).1 (by decide),
   (c5_at_coordinate_extraction ("@95.5,10.0") ("95.5") ("10.0")
      (mkRat 955 10) (mkRat 10 1) (by decide) (by decide) (by decide)).2 (by decide)
      (by decide) (by decide) (by decide) (by decide) (by decide) (by decide) (by decide)⟩

/-- C4 (amended): the coordinate patterns are tried before the
place-identifier pattern (`place_id=` is format 6, after the four
coordinate formats and `cid=`), so a link carrying both a `place_id=`
parameter and a valid `@lat,lng` pair yields the direct coordinates, not
a geocoding-required result carrying the place identifier. -/
theorem c4_coordinates_beat_place_id (url s1 s2 pid : String) (lat lng : Rat)
    (hpid : firstMatch placeIdAt url.toList = some pid)
    (h1 : firstMatch fmt1At url.toList = some (s1, s2))
    (hlat : jsParseFloat s1 = some lat) (hlng : jsParseFloat s2 = some lng)
    (hr : (-90 : Rat) ≤ lat ∧ lat ≤ 90 ∧ (-180 : Rat) ≤ lng ∧ lng ≤ 180) :
    extractCoordinatesFromUrl url = { noResult with coordinates := some (lat, lng) } ∧
    (extractCoordinatesFromUrl url).needsGeocoding = false ∧
    (extractCoordinatesFromUrl url).placeId = none := by
  have he := extract_fmt1_valid h1 hlat hlng (validPair_iff.mpr hr)
  exact ⟨he, by rw [he]; rfl, by rw [he]; rfl⟩

/-- Counterexample to C4 as stated: a link containing both `place_id=`
and a valid `@`-coordinate pair returns direct coordinates with no place
identifier, not the claimed geocoding-required result. -/
theorem c4_counterexample :
    firstMatch placeIdAt ("https://maps.google.com/?place_id=ChIJabc&t=@40.7,-74.0").toList
      = some ("ChIJabc") ∧
    extractCoordinatesFromUrl ("https://maps.google.com/?place_id=ChIJabc&t=@40.7,-74.0") =
      { noResult with coordinates := some (mkRat 407 10, mkRat (-74) 1) } ∧
    (extractCoordinatesFromUrl
      ("https://maps.google.com/?place_id=ChIJabc&t=@40.7,-74.0")).needsGeocoding = false ∧
    (extractCoordinatesFromUrl
      ("https://maps.google.com/?place_id=ChIJabc&t=@40.7,-74.0")).placeId = none := by decide

/-- Witness for the amended C4 at a link carrying both patterns. -/
theorem c4_coordinates_beat_place_id_witness :
    extractCoordinatesFromUrl ("https://maps.google.com/?place_id=ChIJxyz&u=@10.5,20.5") =
      { noResult with coordinates := some (mkRat 105 10, mkRat 205 10) } ∧
    (extractCoordinatesFromUrl
      ("https://maps.google.com/?place_id=ChIJxyz&u=@10.5,20.5")).needsGeocoding = false ∧
    (extractCoordinatesFromUrl
      ("https://maps.google.com/?place_id=ChIJxyz&u=@10.5,20.5")).placeId = none :=
  c4_coordinates_beat_place_id ("https://maps.google.com/?place_id=ChIJxyz&u=@10.5,20.5")
    ("10.5") ("20.5") ("ChIJxyz") (mkRat 105 10) (mkRat 205 10)
    (by decide) (by decide) (by decide) (by decide) (by decide)

/-- C6 (amended): for a customer-identifier query (`cid:`…), when a
truthy place name is supplied `geocodeQuery` geocodes by that place name
(never by the identifier); when no truthy place name is available it
geocodes by the identifier text itself (the query with `cid:` removed) as
a free-text address and returns whatever the geocoder answers — it does
not return null without attempting. -/
theorem c6_cid_dispatch (geocoder : GeocodeRequest → Option (Rat × Rat))
    (query : String) (placeName : Option String)
    (hcid : strStartsWith query ("cid:") = true) :
    (oTruthy placeName = true →
      geocodeQuery geocoder query placeName =
        geocoder (GeocodeRequest.byAddress (placeName.getD ""))) ∧
    (oTruthy placeName = false →
      geocodeQuery geocoder query placeName =
        geocoder (GeocodeRequest.byAddress (replaceFirst query ("cid:") ("")))) := by
  constructor
  · intro ht
    cases placeName with
    | none => simp [oTruthy] at ht
    | some p =>
      have hp : (p != "") = true := by simpa [oTruthy] using ht
      simp [geocodeQuery, geocodeRequestFor, hcid, hp]
  · intro hf
    cases placeName with
    | none => simp [geocodeQuery, geocodeRequestFor, hcid]
    | some p =>
      have hp : p = "" := by simpa [oTruthy] using hf
      simp [geocodeQuery, geocodeRequestFor, hcid, hp]

/-- Counterexample to C6 as stated: with no place name available, the
code still issues a geocode request with the raw identifier as the
address, and returns that attempt's (here non-null) result — it does not
fail with an empty result without attempting. -/
theorem c6_counterexample :
    geocodeRequestFor ("cid:123") none = GeocodeRequest.byAddress ("123") ∧
    geocodeQuery c6Geocoder ("cid:123") none = some (mkRat 1 1, mkRat 2 1) := by decide

/-- Witness for the amended C6 at a concrete query with and without a
place name. -/
theorem c6_cid_dispatch_witness :
    geocodeQuery c6Geocoder ("cid:9") (some ("Tokyo Tower")) =
      c6Geocoder (GeocodeRequest.byAddress ("Tokyo Tower")) ∧
    geocodeQuery c6Geocoder ("cid:9") none =
      c6Geocoder (GeocodeRequest.byAddress ("9")) :=
  ⟨(c6_cid_dispatch c6Geocoder ("cid:9") (some ("Tokyo Tower")) (by decide)).1 (by decide),
   (c6_cid_dispatch c6Geocoder ("cid:9") none (by decide)).2 (by decide)⟩

/-! ### Second-pass argmax lemmas (claim C8) -/

/-- Scanning citations whose scores are all below `s0` keeps the
accumulator's score below `s0`. -/
theorem foldl_pass2_lt {pw : List String} {s0 : Rat} :
    ∀ {l : List GroundingChunk} {acc : Option (String × Rat)},
    (∀ c' ∈ l, ∀ r, chunkScore pw c' = some r → r < s0) →
    (∀ u r, acc = some (u, r) → r < s0) →
    (∀ u r, l.foldl (pass2Step pw) acc = some (u, r) → r < s0) := by
  intro l
  induction l with
  | nil => intro acc _ hacc u r h; exact hacc u r h
  | cons s rest ih =>
    intro acc hl hacc u r h
    rw [List.foldl_cons] at h
    refine ih (fun c' hc' => hl c' (List.mem_cons_of_mem s hc')) ?_ u r h
    intro u' r' hstep
    cases hm : s.maps with
    | none => rw [pass2Step, hm] at hstep; exact hacc u' r' hstep
    | some mm =>
      simp only [pass2Step, hm] at hstep
      split at hstep
      · rename_i htt
        split at hstep
        · have hsc : chunkScore pw s = some (scoreOf pw mm.title) := by
            simp [chunkScore, hm, htt]
          have hlt := hl s (List.mem_cons_self s rest) (scoreOf pw mm.title) hsc
          have hpair := Option.some.inj hstep
          have hr' : r' = scoreOf pw mm.title := (congrArg Prod.snd hpair).symm
          rw [hr']
          exact hlt
        · exact hacc u' r' hstep
      · exact hacc u' r' hstep

/-- A citation scoring `s0 ≥ 1/2` replaces any accumulator whose score is
below `s0`. -/
theorem pass2Step_new_best {pw : List String} {s0 : Rat} {c : GroundingChunk} {m : MapsRef}
    {acc : Option (String × Rat)}
    (hm : c.maps = some m) (ht : m.title ≠ "") (hs : scoreOf pw m.title = s0)
    (hhalf : mkRat 1 2 ≤ s0)
    (hacc : ∀ u r, acc = some (u, r) → r < s0) :
    pass2Step pw acc c = some (m.uri, s0) := by
  have htt : (m.title != "") = true := by simpa using ht
  have hb : betterB acc s0 = true := by
    cases acc with
    | none => rfl
    | some b =>
      have hlt := hacc b.1 b.2 rfl
      simp only [betterB]
      exact decide_eq_true hlt
  simp only [pass2Step, hm, htt, if_true, hs, decide_eq_true hhalf, hb, Bool.and_self]

/-- A best citation scoring `s0` survives scanning citations whose scores
never exceed `s0` (strict improvement is required to replace it). -/
theorem foldl_pass2_keep {pw : List String} {u0 : String} {s0 : Rat} :
    ∀ {l : List GroundingChunk},
    (∀ c' ∈ l, ∀ r, chunkScore pw c' = some r → r ≤ s0) →
    l.foldl (pass2Step pw) (some (u0, s0)) = some (u0, s0) := by
  intro l
  induction l with
  | nil => intro _; rfl
  | cons s rest ih =>
    intro hl
    rw [List.foldl_cons]
    have hstep : pass2Step pw (some (u0, s0)) s = some (u0, s0) := by
      cases hm : s.maps with
      | none => rw [pass2Step, hm]
      | some mm =>
        by_cases htt : (mm.title != "") = true
        · have hsc : chunkScore pw s = some (scoreOf pw mm.title) := by
            simp [chunkScore, hm, htt]
          have hle := hl s (List.mem_cons_self s rest) _ hsc
          have hb : betterB (some (u0, s0)) (scoreOf pw mm.title) = false := by
            simp only [betterB]
            exact decide_eq_false (not_lt.mpr hle)
          simp only [pass2Step, hm, htt, if_true, hb, Bool.and_false, Bool.false_eq_true,
            if_false]
        · have htt' : (mm.title != "") = false := by simpa using htt
          simp only [pass2Step, hm, htt', Bool.false_eq_true, if_false]
    rw [hstep]
    exact ih (fun c' hc' => hl c' (List.mem_cons_of_mem s hc'))

/-- C8: stability of the fallback pass.  If the place name passes the
generic filter, the exact/containment pass finds nothing, and the
citation `c` is the first to reach the maximal fallback score `s0 ≥ 1/2`
(everything before it scores strictly below `s0`, everything after at
most `s0`) while a later citation ties at `s0`, then `findMatchingUri`
returns `c`'s maps uri: first-seen maximum wins, the list is never
re-ordered. -/
theorem c8_first_max_wins (placeName : String) (pre post : List GroundingChunk)
    (c : GroundingChunk) (m : MapsRef) (s0 : Rat)
    (hng : isGenericB placeName = false)
    (hp1 : pass1Uri placeName (pre ++ c :: post) = none)
    (hpw : placeWordsOf placeName ≠ [])
    (hm : c.maps = some m) (ht : m.title ≠ "")
    (hs : scoreOf (placeWordsOf placeName) m.title = s0)
    (hhalf : mkRat 1 2 ≤ s0)
    (hpre : ∀ c' ∈ pre, ∀ r, chunkScore (placeWordsOf placeName) c' = some r → r < s0)
    (hpost : ∀ c' ∈ post, ∀ r, chunkScore (placeWordsOf placeName) c' = some r → r ≤ s0)
    (htie : ∃ c' ∈ post, chunkScore (placeWordsOf placeName) c' = some s0) :
    findMatchingUri placeName (pre ++ c :: post) = some m.uri := by
  have hng' : (genericKeywords.any (fun keyword => strIncludes (normalizeString placeName) keyword)
      && decide ((jsSplitSpace (normalizeString placeName)).length ≤ 4)) = false := hng
  have hpw' : ((jsSplitSpace (normalizeString placeName)).filter
      (fun w => 2 < w.length)).isEmpty = false := by
    cases hpl : (jsSplitSpace (normalizeString placeName)).filter (fun w => 2 < w.length) with
    | nil => exact absurd hpl hpw
    | cons a l => rfl
  have hfold : (pre ++ c :: post).foldl (pass2Step (placeWordsOf placeName)) none =
      some (m.uri, s0) := by
    rw [List.foldl_append, List.foldl_cons]
    have haccpre : ∀ u r, pre.foldl (pass2Step (placeWordsOf placeName)) none = some (u, r) →
        r < s0 :=
      foldl_pass2_lt hpre (fun u r h => Option.noConfusion h)
    rw [pass2Step_new_best hm ht hs hhalf haccpre]
    exact foldl_pass2_keep hpost
  have hfold' : (pre ++ c :: post).foldl
      (pass2Step ((jsSplitSpace (normalizeString placeName)).filter
        (fun w => 2 < w.length))) none = some (m.uri, s0) := hfold
  simp only [findMatchingUri, hng', Bool.false_eq_true, if_false, hp1, hpw', hfold']

/-- Witness for C8: "Tokyo Tower" against two citations both scoring 1/2
in the fallback pass; the first one's uri is returned. -/
theorem c8_first_max_wins_witness :
    findMatchingUri ("Tokyo Tower") [twrChunk1, twrChunk2] =
      some ("https://maps.google.com/a") := by
  have h := c8_first_max_wins ("Tokyo Tower") [] [twrChunk2] twrChunk1
    { uri := "https://maps.google.com/a", title := "Tower Records Shop",
      placeAnswerSources := none }
    (mkRat 1 2) (by decide) (by decide) (by decide) (by decide) (by decide) (by decide)
    (by decide)
    (by intro c' hc'; simp at hc')
    (by
      intro c' hc' r hr
      have hc2 : c' = twrChunk2 := by simpa using hc'
      subst hc2
      have hval : chunkScore (placeWordsOf ("Tokyo Tower")) twrChunk2 =
          some (mkRat 1 2) := by decide
      rw [hval] at hr
      obtain rfl : mkRat 1 2 = r := Option.some.inj hr
      exact le_refl _)
    ⟨twrChunk2, by simp, by decide⟩
  exact h

/-! ### Annotation lemmas (claims C2, C3, C7) -/

/-- A non-null, non-empty optional string is kept by `x || null`. -/
theorem orNull_of_ne {o : Option String} (h1 : o ≠ none) (h2 : o ≠ some "") :
    orNull o = o := by
  cases o with
  | none => exact absurd rfl h1
  | some v =>
    have hv : v ≠ "" := fun he => h2 (by rw [he])
    simp [orNull, oTruthy, hv]

/-- A falsy optional string that is not `some ""` is `none`. -/
theorem oTruthy_false_none {o : Option String} (h1 : oTruthy o = false) (h2 : o ≠ some "") :
    o = none := by
  cases o with
  | none => rfl
  | some v =>
    have hv : v = "" := by simpa [oTruthy] using h1
    exact absurd (by rw [hv]) h2

/-- A truthy optional string is not `none`. -/
theorem oTruthy_ne_none {o : Option String} (h : oTruthy o = true) : o ≠ none := by
  cases o with
  | none => simp [oTruthy] at h
  | some v => simp

/-- Neighborhood resolution never yields the empty string when every maps
citation has a non-empty uri. -/
theorem findNeighborhoodUri_ne_empty {loc : String} {s : List GroundingChunk}
    (hs : sourcesCleanB s = true) : findNeighborhoodUri loc s ≠ "" := by
  cases hscan : neighborhoodScan (normalizeString loc) s with
  | none =>
    unfold findNeighborhoodUri
    rw [hscan]
    intro he
    have hlen := congrArg String.length he
    rw [generateNeighborhoodMapsUrl, String.length_append] at hlen
    have hpos : 0 < ("https://www.google.com/maps/search/?api=1&query=").length := by decide
    have h0 : ("" : String).length = 0 := rfl
    rw [h0] at hlen
    omega
  | some u =>
    obtain ⟨c, hc, m, hcm, hu⟩ := neighborhoodScan_mem hscan
    have hclean : mapsUriCleanB c = true := List.all_eq_true.mp hs c hc
    have hne : m.uri ≠ "" := by
      simp only [mapsUriCleanB, hcm] at hclean
      simpa using hclean
    unfold findNeighborhoodUri
    rw [hscan]
    exact hu ▸ hne

/-- `annotateHotel` keeps a hotel with a truthy map link unchanged. -/
theorem annotateHotel_eq_keep {s : List GroundingChunk} {hotel : Hotel}
    (h : oTruthy hotel.googleMapsLink = true) : annotateHotel s hotel = hotel := by
  simp only [annotateHotel, h, Bool.not_true, Bool.false_eq_true, if_false]

/-- `annotateHotel` fills the map link of a hotel with a falsy one. -/
theorem annotateHotel_eq_fill {s : List GroundingChunk} {hotel : Hotel}
    (h : oTruthy hotel.googleMapsLink = false) :
    annotateHotel s hotel = { hotel with googleMapsLink := findMatchingUri hotel.name s } := by
  simp only [annotateHotel, h, Bool.not_false, if_true]

/-- `annotateGem` on a gem with a truthy neighborhood link. -/
theorem annotateGem_eq_keepLoc {s : List GroundingChunk} {g : HiddenGem}
    (h : oTruthy g.locationUri = true) :
    annotateGem s g =
      { g with googleMapsLink := orNull g.googleMapsLink, locationUri := g.locationUri } := by
  simp only [annotateGem, h, if_true]

/-- `annotateGem` on a gem with a falsy neighborhood link but truthy map
link. -/
theorem annotateGem_eq_keep {s : List GroundingChunk} {g : HiddenGem}
    (hLoc : oTruthy g.locationUri = false) (hG : oTruthy g.googleMapsLink = true) :
    annotateGem s g = { g with googleMapsLink := orNull g.googleMapsLink } := by
  simp only [annotateGem, hLoc, Bool.false_eq_true, if_false, hG, Bool.not_true]

/-- `annotateGem` on a gem with falsy neighborhood and map links, when
the recomputed neighborhood uri is truthy. -/
theorem annotateGem_eq_fill {s : List GroundingChunk} {g : HiddenGem}
    (hLoc : oTruthy g.locationUri = false) (hG : oTruthy g.googleMapsLink = false)
    (hlu : findNeighborhoodUri g.location s ≠ "") :
    annotateGem s g =
      { g with googleMapsLink := orNull (findMatchingUri g.name s),
               locationUri := some (findNeighborhoodUri g.location s) } := by
  have hlu' : (findNeighborhoodUri g.location s != "") = true := by simpa using hlu
  simp only [annotateGem, hLoc, Bool.false_eq_true, if_false, hG, Bool.not_false, if_true,
    hlu']

/-- `annotateGem` on a gem with falsy neighborhood and map links, when
the recomputed neighborhood uri is empty. -/
theorem annotateGem_eq_fillNoLu {s : List GroundingChunk} {g : HiddenGem}
    (hLoc : oTruthy g.locationUri = false) (hG : oTruthy g.googleMapsLink = false)
    (hlu : findNeighborhoodUri g.location s = "") :
    annotateGem s g = { g with googleMapsLink := orNull (findMatchingUri g.name s) } := by
  have hlu' : (findNeighborhoodUri g.location s != "") = false := by simpa using hlu
  simp only [annotateGem, hLoc, Bool.false_eq_true, if_false, hG, Bool.not_false, if_true,
    hlu']

/-- The hidden gem of an annotated item is the annotated hidden gem of
the input, in every branch. -/
theorem annotateItem_hiddenGem {s : List GroundingChunk} {item : ItineraryItem} :
    (annotateItem s item).hiddenGem = item.hiddenGem.map (annotateGem s) := by
  simp only [annotateItem]
  split <;> rfl

/-- `annotateItem` when the recomputed neighborhood uri is truthy. -/
theorem annotateItem_eq {s : List GroundingChunk} {item : ItineraryItem}
    (hlu : findNeighborhoodUri item.location s ≠ "") :
    annotateItem s item =
      { item with
        googleMapsLink := orNull (jsOr item.googleMapsLink (findMatchingUri item.activity s)),
        locationUri := some (findNeighborhoodUri item.location s),
        hiddenGem := item.hiddenGem.map (annotateGem s) } := by
  have hlu' : (findNeighborhoodUri item.location s != "") = true := by simpa using hlu
  simp only [annotateItem, hlu', if_true]

/-- `annotateItem` when the recomputed neighborhood uri is empty. -/
theorem annotateItem_eq_noLu {s : List GroundingChunk} {item : ItineraryItem}
    (hlu : findNeighborhoodUri item.location s = "") :
    annotateItem s item =
      { item with
        googleMapsLink := orNull (jsOr item.googleMapsLink (findMatchingUri item.activity s)),
        hiddenGem := item.hiddenGem.map (annotateGem s) } := by
  have hlu' : (findNeighborhoodUri item.location s != "") = false := by simpa using hlu
  simp only [annotateItem, hlu', Bool.false_eq_true, if_false]

/-- Hotel annotation preserves a clean hotel in the `HotelPreserved`
sense. -/
theorem annotateHotel_preserved {s : List GroundingChunk} {h : Hotel}
    (hc : h.googleMapsLink ≠ some "") : HotelPreserved h (annotateHotel s h) := by
  cases ht : oTruthy h.googleMapsLink with
  | true =>
    rw [annotateHotel_eq_keep ht]
    exact ⟨rfl, rfl, rfl, fun _ => rfl⟩
  | false =>
    have hnone : h.googleMapsLink = none := oTruthy_false_none ht hc
    rw [annotateHotel_eq_fill ht]
    exact ⟨rfl, rfl, rfl, fun hne => absurd hnone hne⟩

/-- Gem annotation preserves a clean gem in the `GemPreserved` sense. -/
theorem annotateGem_preserved {s : List GroundingChunk} {g : HiddenGem}
    (hc : gemCleanB g = true) : GemPreserved g (annotateGem s g) := by
  have hc' := hc
  simp only [gemCleanB, Bool.and_eq_true] at hc'
  obtain ⟨hc1, hc2⟩ := hc'
  have hc1' : g.googleMapsLink ≠ some "" := by simpa using hc1
  have hc2' : g.locationUri ≠ some "" := by simpa using hc2
  have hml : g.googleMapsLink ≠ none → orNull g.googleMapsLink = g.googleMapsLink :=
    fun hne => orNull_of_ne hne hc1'
  cases hLoc : oTruthy g.locationUri with
  | true =>
    rw [annotateGem_eq_keepLoc hLoc]
    exact ⟨rfl, rfl, rfl, fun hne => hml hne, fun _ => rfl⟩
  | false =>
    have hlocnone : g.locationUri = none := oTruthy_false_none hLoc hc2'
    cases hG : oTruthy g.googleMapsLink with
    | true =>
      rw [annotateGem_eq_keep hLoc hG]
      exact ⟨rfl, rfl, rfl, fun hne => hml hne, fun hne => absurd hlocnone hne⟩
    | false =>
      have hgnone : g.googleMapsLink = none := oTruthy_false_none hG hc1'
      by_cases hlu : findNeighborhoodUri g.location s = ""
      · rw [annotateGem_eq_fillNoLu hLoc hG hlu]
        exact ⟨rfl, rfl, rfl, fun hne => absurd hgnone hne,
          fun hne => absurd hlocnone hne⟩
      · rw [annotateGem_eq_fill hLoc hG hlu]
        exact ⟨rfl, rfl, rfl, fun hne => absurd hgnone hne,
          fun hne => absurd hlocnone hne⟩

/-- How gem annotation settles the neighborhood link of a clean gem
(used by claim C7). -/
theorem annotateGem_locationUri {s : List GroundingChunk} {g : HiddenGem}
    (hsrc : sourcesCleanB s = true) (hc : gemCleanB g = true) :
    (g.locationUri ≠ none → (annotateGem s g).locationUri = g.locationUri) ∧
    (g.locationUri = none → g.googleMapsLink = none →
      (annotateGem s g).locationUri = some (findNeighborhoodUri g.location s)) ∧
    (g.locationUri = none → g.googleMapsLink ≠ none →
      (annotateGem s g).locationUri = none) := by
  have hc' := hc
  simp only [gemCleanB, Bool.and_eq_true] at hc'
  obtain ⟨hc1, hc2⟩ := hc'
  have hc1' : g.googleMapsLink ≠ some "" := by simpa using hc1
  cases hLoc : oTruthy g.locationUri with
  | true =>
    have hne : g.locationUri ≠ none := oTruthy_ne_none hLoc
    refine ⟨fun _ => ?_, fun hno _ => absurd hno hne, fun hno _ => absurd hno hne⟩
    rw [annotateGem_eq_keepLoc hLoc]
  | false =>
    have hlocnone : g.locationUri = none :=
      oTruthy_false_none hLoc (by simpa using hc2)
    refine ⟨fun hne => absurd hlocnone hne, fun _ hgl => ?_, fun _ hgl => ?_⟩
    · have hG : oTruthy g.googleMapsLink = false := by rw [hgl]; rfl
      have hlu : findNeighborhoodUri g.location s ≠ "" := findNeighborhoodUri_ne_empty hsrc
      rw [annotateGem_eq_fill hLoc hG hlu]
    · have hG : oTruthy g.googleMapsLink = true := by
        cases hgml : g.googleMapsLink with
        | none => exact absurd hgml hgl
        | some v =>
          have hv : v ≠ "" := fun he => hc1' (by rw [hgml, he])
          simp [oTruthy, hv]
      rw [annotateGem_eq_keep hLoc hG]
      exact hlocnone

/-- Item annotation preserves a clean item in the `ItemPreserved` sense. -/
theorem annotateItem_preserved {s : List GroundingChunk} {i : ItineraryItem}
    (hsrc : sourcesCleanB s = true) (hc : itemCleanB i = true) :
    ItemPreserved s i (annotateItem s i) := by
  have hc' := hc
  simp only [itemCleanB, Bool.and_eq_true] at hc'
  obtain ⟨hc1, hcg⟩ := hc'
  have hc1' : i.googleMapsLink ≠ some "" := by simpa using hc1
  have hlu : findNeighborhoodUri i.location s ≠ "" := findNeighborhoodUri_ne_empty hsrc
  rw [annotateItem_eq hlu]
  refine ⟨rfl, rfl, rfl, rfl, ?_, rfl, ?_, ?_⟩
  · intro hne
    have hT : oTruthy i.googleMapsLink = true := by
      cases hgml : i.googleMapsLink with
      | none => exact absurd hgml hne
      | some v =>
        have hv : v ≠ "" := fun he => hc1' (by rw [hgml, he])
        simp [oTruthy, hv]
    have hjs : jsOr i.googleMapsLink (findMatchingUri i.activity s) = i.googleMapsLink := by
      simp [jsOr, hT]
    rw [hjs]
    exact orNull_of_ne hne hc1'
  · intro hno
    rw [hno]
    rfl
  · intro g hg
    refine ⟨annotateGem s g, by rw [hg]; rfl, ?_⟩
    have hcgem : gemCleanB g = true := by
      rw [hg] at hcg
      exact hcg
    exact annotateGem_preserved hcgem

/-- A pointwise relation between a list and its map. -/
theorem forall2_map_self {α β : Type} (R : α → β → Prop) (f : α → β) :
    ∀ (l : List α), (∀ x ∈ l, R x (f x)) → List.Forall₂ R l (l.map f) := by
  intro l
  induction l with
  | nil => intro _; rw [List.map_nil]; exact List.Forall₂.nil
  | cons a t ih =>
    intro h
    rw [List.map_cons]
    exact List.Forall₂.cons (h a (List.mem_cons_self a t))
      (ih (fun x hx => h x (List.mem_cons_of_mem a hx)))

/-- Mapping a function that fixes every element is the identity. -/
theorem map_eq_self_of_eq {α : Type} (f : α → α) :
    ∀ (l : List α), (∀ x ∈ l, f x = x) → l.map f = l := by
  intro l
  induction l with
  | nil => intro _; rfl
  | cons a t ih =>
    intro h
    rw [List.map_cons, h a (List.mem_cons_self a t),
      ih (fun x hx => h x (List.mem_cons_of_mem a hx))]

/-- Gem annotation fixes a gem whose two links are truthy. -/
theorem annotateGem_id {s : List GroundingChunk} {g : HiddenGem}
    (h1 : oTruthy g.googleMapsLink = true) (h2 : oTruthy g.locationUri = true) :
    annotateGem s g = g := by
  rw [annotateGem_eq_keepLoc h2]
  have horn : orNull g.googleMapsLink = g.googleMapsLink := by simp [orNull, h1]
  rw [horn]

/-- Item annotation fixes an item whose map link is truthy, whose
neighborhood link already equals the recomputed resolution, and whose gem
links are truthy. -/
theorem annotateItem_id {s : List GroundingChunk} {i : ItineraryItem}
    (hg : oTruthy i.googleMapsLink = true)
    (hloc : i.locationUri = some (findNeighborhoodUri i.location s))
    (hgem : ∀ g, i.hiddenGem = some g →
      oTruthy g.googleMapsLink = true ∧ oTruthy g.locationUri = true) :
    annotateItem s i = i := by
  have hact : jsOr i.googleMapsLink (findMatchingUri i.activity s) = i.googleMapsLink := by
    simp [jsOr, hg]
  have horn : orNull i.googleMapsLink = i.googleMapsLink := by simp [orNull, hg]
  have hgemmap : i.hiddenGem.map (annotateGem s) = i.hiddenGem := by
    cases hgm : i.hiddenGem with
    | none => rfl
    | some g =>
      obtain ⟨h1, h2⟩ := hgem g hgm
      rw [Option.map_some', annotateGem_id h1 h2]
  by_cases hlu : findNeighborhoodUri i.location s = ""
  · rw [annotateItem_eq_noLu hlu, hact, horn, hgemmap]
  · rw [annotateItem_eq hlu, hact, horn, hgemmap, ← hloc]

/-- C2 (amended): over inputs whose link fields are never the empty
string and citations with non-empty uris, `matchSourcesToItinerary`
preserves the trip fields, the hotel and day counts, every non-link
field, every non-null map link, the presence and order of items and
gems, and gems' non-null neighborhood links — but each item's
neighborhood link is unconditionally recomputed from its area label (it
may replace an existing non-null value, which refutes the claim as
stated). -/
theorem c2_annotation_invariants (it : Itinerary) (s : List GroundingChunk)
    (hclean : itinCleanB it = true) (hsrc : sourcesCleanB s = true) :
    C2Conclusion it s := by
  have hclean' := hclean
  simp only [itinCleanB, Bool.and_eq_true] at hclean'
  obtain ⟨hhot, hdays⟩ := hclean'
  refine ⟨rfl, rfl, rfl, by simp [matchSourcesToItinerary], by simp [matchSourcesToItinerary],
    ?_, ?_⟩
  · refine forall2_map_self HotelPreserved (annotateHotel s) it.recommendedHotels ?_
    intro h hm
    have hh := List.all_eq_true.mp hhot h hm
    exact annotateHotel_preserved (by simpa using hh)
  · refine forall2_map_self (DayPreserved s)
      (fun day => { day with items := day.items.map (annotateItem s) }) it.dailyItinerary ?_
    intro d hd
    have hdi := List.all_eq_true.mp hdays d hd
    refine ⟨rfl, rfl, ?_⟩
    refine forall2_map_self (ItemPreserved s) (annotateItem s) d.items ?_
    intro i hi
    exact annotateItem_preserved hsrc (List.all_eq_true.mp hdi i hi)

/-- Counterexample to C2 as stated: an item whose neighborhood link is
the non-null value "old" has it replaced by the freshly generated
maps-search URL — a change from one non-null value to a different one. -/
theorem c2_counterexample :
    c2CxItem.locationUri = some ("old") ∧
    (matchSourcesToItinerary c2CxIt []).dailyItinerary.map
      (fun d => d.items.map ItineraryItem.locationUri) =
      [[some ("https://www.google.com/maps/search/?api=1&query=Shibuya")]] := by decide

/-- Witness for the amended C2 at a small clean itinerary. -/
theorem c2_annotation_invariants_witness :
    itinCleanB w2It = true ∧ sourcesCleanB w2S = true ∧ C2Conclusion w2It w2S :=
  ⟨by decide, by decide, c2_annotation_invariants w2It w2S (by decide) (by decide)⟩

/-- C3 (amended): annotation is the identity on an itinerary whose map
links are all truthy, whose gems carry truthy map and neighborhood
links, and whose item neighborhood links already equal the recomputed
neighborhood resolution.  (As stated, with merely non-null links, the
claim fails: item neighborhood links are unconditionally recomputed.) -/
theorem c3_idempotent_on_ready (it : Itinerary) (s : List GroundingChunk)
    (h : fullyPopulatedReadyB it s = true) : matchSourcesToItinerary it s = it := by
  have h' := h
  simp only [fullyPopulatedReadyB, Bool.and_eq_true] at h'
  obtain ⟨hhot, hdays⟩ := h'
  unfold matchSourcesToItinerary
  rw [map_eq_self_of_eq (annotateHotel s) it.recommendedHotels
    (fun x hx => annotateHotel_eq_keep (List.all_eq_true.mp hhot x hx))]
  rw [map_eq_self_of_eq _ it.dailyItinerary (fun d hd => ?_)]
  · have hdi := List.all_eq_true.mp hdays d hd
    have hitems : ∀ i ∈ d.items, annotateItem s i = i := by
      intro i hi
      have hii := List.all_eq_true.mp hdi i hi
      simp only [Bool.and_eq_true] at hii
      obtain ⟨⟨hg, hloc⟩, hgem⟩ := hii
      refine annotateItem_id hg (by simpa using hloc) ?_
      intro g hgm
      rw [hgm] at hgem
      have : (oTruthy g.googleMapsLink && oTruthy g.locationUri) = true := hgem
      simpa [Bool.and_eq_true] using this
    rw [map_eq_self_of_eq (annotateItem s) d.items hitems]

/-- Counterexample to C3 as stated: a fully populated itinerary (every
map link and neighborhood link non-null) is not returned unchanged — its
item's neighborhood link "x" is replaced by the recomputed URL. -/
theorem c3_counterexample :
    allLinksPresentB c3CxIt = true ∧ matchSourcesToItinerary c3CxIt [] ≠ c3CxIt := by decide

/-- Witness for the amended C3 at a ready itinerary. -/
theorem c3_idempotent_on_ready_witness :
    fullyPopulatedReadyB c3ReadyIt [] = true ∧ matchSourcesToItinerary c3ReadyIt [] = c3ReadyIt :=
  ⟨by decide, c3_idempotent_on_ready c3ReadyIt [] (by decide)⟩

/-- C7 (amended): under clean citations every annotated item's
neighborhood link is populated with the recomputed resolution of its
area label; but hidden gems are not processed like their parent items —
a gem's neighborhood link is filled only when the gem lacks both a
neighborhood link and a map link, and a gem that has a map link but no
neighborhood link keeps the neighborhood link absent. -/
theorem c7_neighborhood_population (it : Itinerary) (s : List GroundingChunk)
    (hsrc : sourcesCleanB s = true)
    (hgems : it.dailyItinerary.all
      (fun d => d.items.all (fun i => i.hiddenGem.all gemCleanB)) = true) :
    C7Conclusion it s := by
  constructor
  · intro d' hd' i' hi'
    obtain ⟨d, hd, rfl⟩ := List.mem_map.mp hd'
    obtain ⟨i, hi, rfl⟩ := List.mem_map.mp hi'
    have hlu : findNeighborhoodUri i.location s ≠ "" := findNeighborhoodUri_ne_empty hsrc
    rw [annotateItem_eq hlu]
  · refine forall2_map_self _
      (fun day => { day with items := day.items.map (annotateItem s) }) it.dailyItinerary ?_
    intro d hd
    have hdi := List.all_eq_true.mp hgems d hd
    refine forall2_map_self (GemOutcome s) (annotateItem s) d.items ?_
    intro i hi
    have hic := List.all_eq_true.mp hdi i hi
    constructor
    · intro hno
      rw [annotateItem_hiddenGem, hno]
      rfl
    · intro g hg
      have hcgem : gemCleanB g = true := by rw [hg] at hic; exact hic
      obtain ⟨h1, h2, h3⟩ := annotateGem_locationUri hsrc hcgem
      exact ⟨annotateGem s g, by rw [annotateItem_hiddenGem, hg]; rfl, h1, h2, h3⟩

/-- Counterexample to C7 as stated: after annotation the parent item's
neighborhood link is populated, but its hidden gem — which carries a map
link and no neighborhood link — still has no neighborhood link. -/
theorem c7_counterexample :
    (matchSourcesToItinerary c7CxIt []).dailyItinerary.map
      (fun d => d.items.map (fun i => (i.locationUri, i.hiddenGem.map HiddenGem.locationUri))) =
      [[(some ("https://www.google.com/maps/search/?api=1&query=Shibuya"), some none)]] := by
  decide

/-- Witness for the amended C7 at a one-item, one-gem itinerary with no
citations. -/
theorem c7_neighborhood_population_witness :
    sourcesCleanB [] = true ∧
    w7It.dailyItinerary.all
      (fun d => d.items.all (fun i => i.hiddenGem.all gemCleanB)) = true ∧
    C7Conclusion w7It [] :=
  ⟨by decide, by decide, c7_neighborhood_population w7It [] (by decide) (by decide)⟩

